import Mathlib

/-!
Shallow embedding of the cart subsystem of the Telegram cafe bot
(`enhanced_cart_manager.py`), the component the specification calls the
Cart Store.

Python dicts are embedded as association lists with unique keys in
insertion order: `dictGet` is `d.get(k)` / `d[k]`, `dictInsert` is
`d[k] = v` (update in place if the key exists, append otherwise),
`dictErase` is `del d[k]` (on a dict the key occurs at most once, so
removing every matching entry coincides with removing the single one).

`Cart` keeps only the `items` mapping: the `created_at` / `updated_at`
fields of the source are wall-clock strings (`datetime.now().isoformat()`)
that no modelled observation reads, so they are omitted.

A crucial aliasing fact of the source is modelled explicitly: Python's
`self.carts.get(user_id, default)` returns a reference to the *stored*
dict when `user_id` is present, so the in-place mutations that
`add_item` performs on `cart['items']` (lines 43-46) are visible in the
store even on the early-return path at line 51 that skips the explicit
save `self.carts[user_id] = cart` at line 59.  Only when the user had no
materialized cart does the early return leave the store untouched,
because `get_cart` then built a fresh dict.
-/

/-- `d.get(k)` on a Python dict embedded as an association list. -/
def dictGet {α β : Type} [DecidableEq α] (k : α) : List (α × β) → Option β
  | [] => none
  | p :: rest => if p.1 = k then some p.2 else dictGet k rest

/-- `d[k] = v` on a Python dict: replace the value at the first (unique)
occurrence of `k` keeping its position, or append `(k, v)` when absent. -/
def dictInsert {α β : Type} [DecidableEq α] (k : α) (v : β) : List (α × β) → List (α × β)
  | [] => [(k, v)]
  | p :: rest => if p.1 = k then (k, v) :: rest else p :: dictInsert k v rest

/-- `del d[k]` on a Python dict: drop every entry with key `k` (at most
one exists in a dict). -/
def dictErase {α β : Type} [DecidableEq α] (k : α) : List (α × β) → List (α × β)
  | [] => []
  | p :: rest => if p.1 = k then dictErase k rest else p :: dictErase k rest

/-- Modelled from the spec: `MAX_CART_ITEMS` is imported from
`enhanced_config.py`, a module absent from the sources; the spec calls it
"a configured capacity, e.g. 50" and a positive integer, so it is fixed
at 50 here. -/
def MAX_CART_ITEMS : Nat := 50

/-- A user's cart: the `items` dict (item id → quantity).  Timestamps of
the source are omitted (wall-clock data no modelled claim observes). -/
structure Cart where
  items : List (String × Int)
deriving DecidableEq, Repr

/-- The in-memory store `self.carts` (user id → cart) of `CartManager`. -/
structure CartManager where
  carts : List (Nat × Cart)
deriving DecidableEq, Repr

/-- `CartManager.get_cart` (lines 21-31): `self.carts.get(user_id, fresh)`
where the fresh default has an empty `items` dict.  The `except` branch is
unreachable (`dict.get` does not raise). -/
def CartManager.get_cart (m : CartManager) (user_id : Nat) : Cart :=
  (dictGet user_id m.carts).getD ⟨[]⟩

/-- `CartManager.add_item` (lines 33-66).  The guard `'items' not in cart`
at line 39 is always false in the model (every `Cart` value carries an
`items` dict).  Lines 43-46 increment the stored quantity or insert the
new key; line 49 checks `len(cart['items']) > MAX_CART_ITEMS` *after*
that mutation.  On the over-capacity early return (line 51) the store is
nevertheless updated when the user's cart was materialized, because
`cart` aliases the stored dict (see the header comment); only a fresh
(non-materialized) cart is discarded there.  Otherwise line 59 saves the
cart and the call returns `True`. -/
def CartManager.add_item (m : CartManager) (user_id : Nat) (item_id : String)
    (quantity : Int) : Bool × CartManager :=
  let cart := m.get_cart user_id
  let newItems :=
    match dictGet item_id cart.items with
    | some q0 => dictInsert item_id (q0 + quantity) cart.items
    | none => dictInsert item_id quantity cart.items
  if newItems.length > MAX_CART_ITEMS then
    (false,
      if (dictGet user_id m.carts).isSome then
        ⟨dictInsert user_id ⟨newItems⟩ m.carts⟩
      else m)
  else
    (true, ⟨dictInsert user_id ⟨newItems⟩ m.carts⟩)

/-- `CartManager.remove_item` (lines 68-85): delete the entry when present
and save; otherwise return `False` leaving the store as it was. -/
def CartManager.remove_item (m : CartManager) (user_id : Nat) (item_id : String) :
    Bool × CartManager :=
  let cart := m.get_cart user_id
  if (dictGet item_id cart.items).isSome then
    (true, ⟨dictInsert user_id ⟨dictErase item_id cart.items⟩ m.carts⟩)
  else
    (false, m)

/-- `CartManager.update_quantity` (lines 87-107): `quantity <= 0` delegates
to `remove_item`; otherwise `cart['items'][item_id] = quantity` assigns
unconditionally (inserting the key when absent, with no capacity check)
and the cart is saved.  The `'items' in cart` guard at line 95 is always
true in the model, so the `return False` at line 103 is unreachable. -/
def CartManager.update_quantity (m : CartManager) (user_id : Nat) (item_id : String)
    (quantity : Int) : Bool × CartManager :=
  if quantity ≤ 0 then m.remove_item user_id item_id
  else
    let cart := m.get_cart user_id
    (true, ⟨dictInsert user_id ⟨dictInsert item_id quantity cart.items⟩ m.carts⟩)

/-- `CartManager.get_item_quantity` (lines 109-116):
`cart.get('items', {}).get(item_id, 0)`. -/
def CartManager.get_item_quantity (m : CartManager) (user_id : Nat) (item_id : String) : Int :=
  (dictGet item_id (m.get_cart user_id).items).getD 0

/-- `CartManager.clear_cart` (lines 118-128): delete the user's entry from
the store when present and return whether one existed. -/
def CartManager.clear_cart (m : CartManager) (user_id : Nat) : Bool × CartManager :=
  if (dictGet user_id m.carts).isSome then
    (true, ⟨dictErase user_id m.carts⟩)
  else
    (false, m)

/-- `CartManager.get_cart_item_count` (lines 152-159):
`sum(cart.get('items', {}).values())`. -/
def CartManager.get_cart_item_count (m : CartManager) (user_id : Nat) : Int :=
  ((m.get_cart user_id).items.map Prod.snd).sum

/-- `CartManager.is_cart_empty` (lines 161-168):
`len(cart.get('items', {})) == 0`. -/
def CartManager.is_cart_empty (m : CartManager) (user_id : Nat) : Bool :=
  (m.get_cart user_id).items.length == 0

/-- A catalog item record as it appears in `menu_data.json` / the menu
structures of the repository: a dict with at least `id` and `price`
(price a string such as `"$3.00"`). -/
structure Item where
  id : String
  price : String
deriving DecidableEq, Repr

/-- One value of the `menu_items` dict passed to `get_cart_total`
(line 138 iterates `menu_items.items()` as `(category, items)`).  In the
repository's data shapes a category value is either itself a dict (whose
keys are strings) or a list of item dicts; `other` stands for any
non-dict value, which line 139's `isinstance(items, dict)` skips. -/
inductive MenuVal where
  | dict (entries : List (String × Item))
  | other (entries : List Item)
deriving DecidableEq, Repr

/-- One step of the middle loop of `get_cart_total` (lines 138-144) for a
single category value.  When the value is a dict, `for item in items:`
(line 140) iterates the dict's *keys*, which are strings, so the first
iteration evaluates `item.get('id')` on a string and raises
`AttributeError`; an empty dict runs no iteration.  A non-dict value
fails the `isinstance(items, dict)` guard and contributes nothing.  In
no case is `total` increased, so the accumulator passes through
unchanged or the whole computation aborts. -/
def scanCategory (t : Rat) : MenuVal → Except Unit Rat
  | .dict [] => .ok t
  | .dict (_ :: _) => .error ()
  | .other _ => .ok t

/-- The middle loop of `get_cart_total` over all categories of
`menu_items` for one cart entry. -/
def scanMenu (menu_items : List (String × MenuVal)) (t : Rat) : Except Unit Rat :=
  match menu_items with
  | [] => .ok t
  | c :: rest =>
    match scanCategory t c.2 with
    | .ok t1 => scanMenu rest t1
    | .error e => .error e

/-- The outer loop of `get_cart_total` (line 136) over the cart's
`(item_id, quantity)` pairs. -/
def totalLoop (menu_items : List (String × MenuVal)) :
    List (String × Int) → Rat → Except Unit Rat
  | [], t => .ok t
  | _ :: rest, t =>
    match scanMenu menu_items t with
    | .ok t1 => totalLoop menu_items rest t1
    | .error e => .error e

/-- `CartManager.get_cart_total` (lines 130-150): run the nested loops;
the broad `except` turns the `AttributeError` raised inside the inner
loop into the fallback return value `0`. -/
def CartManager.get_cart_total (m : CartManager) (user_id : Nat)
    (menu_items : List (String × MenuVal)) : Rat :=
  match totalLoop menu_items (m.get_cart user_id).items 0 with
  | .ok t => t
  | .error _ => 0

/-- Spec §3 invariant "every stored quantity is a positive integer",
read over every materialized cart of the store. -/
def PosQuantities (m : CartManager) : Prop :=
  ∀ p ∈ m.carts, ∀ e ∈ p.2.items, 0 < e.2

instance (m : CartManager) : Decidable (PosQuantities m) :=
  inferInstanceAs (Decidable (∀ p ∈ m.carts, ∀ e ∈ p.2.items, 0 < e.2))

/-- Spec §3 invariant "number of distinct keys ≤ MAX_CART_ITEMS", read
over every materialized cart of the store (a dict holds each key once,
so the entry count is the distinct-key count). -/
def KeysBound (m : CartManager) : Prop :=
  ∀ p ∈ m.carts, p.2.items.length ≤ MAX_CART_ITEMS

instance (m : CartManager) : Decidable (KeysBound m) :=
  inferInstanceAs (Decidable (∀ p ∈ m.carts, p.2.items.length ≤ MAX_CART_ITEMS))

/-- A store holding one cart for user 7 with item `a` at quantity 2. -/
def mA : CartManager := ⟨[(7, ⟨[("a", 2)]⟩)]⟩

/-- A store holding a materialized but empty cart for user 7. -/
def mEmptyCart : CartManager := ⟨[(7, ⟨[]⟩)]⟩

/-- A cart filled with `MAX_CART_ITEMS` distinct item ids `"0"`..`"49"`,
each at quantity 1. -/
def cart50 : Cart := ⟨(List.range MAX_CART_ITEMS).map (fun n => (Nat.repr n, (1 : Int)))⟩

/-- A store holding `cart50` for user 7: a cart exactly at capacity. -/
def m50 : CartManager := ⟨[(7, cart50)]⟩

/-- The cart `{a: 2, b: 1}` of the spec's `get_cart_total` example,
materialized for user 7. -/
def mAB : CartManager := ⟨[(7, ⟨[("a", 2), ("b", 1)]⟩)]⟩

/-- The spec's example catalog with items `a` at `$3.00` and `b` at
`$5.00`, in the repository's shape: a category whose value is a *list*
of item dicts (as in `menu_data.json`). -/
def menuAB : List (String × MenuVal) :=
  [("coffee", .other [⟨"a", "$3.00"⟩, ⟨"b", "$5.00"⟩])]

/-- The same catalog reshaped with a dict-valued category keyed by item
id, the other plausible calling convention for `menu_items`. -/
def menuABdict : List (String × MenuVal) :=
  [("coffee", .dict [("a", ⟨"a", "$3.00"⟩), ("b", ⟨"b", "$5.00"⟩)])]

/-! ### Basic lemmas about the dict embedding -/

theorem dictGet_dictInsert_self {α β : Type} [DecidableEq α] (k : α) (v : β)
    (d : List (α × β)) : dictGet k (dictInsert k v d) = some v := by
  induction d with
  | nil => simp [dictInsert, dictGet]
  | cons p rest ih =>
    by_cases h : p.1 = k
    · simp [dictInsert, h, dictGet]
    · simp [dictInsert, h, dictGet, ih]

theorem dictGet_dictInsert_ne {α β : Type} [DecidableEq α] {k k' : α} (v : β)
    (d : List (α × β)) (hne : k' ≠ k) :
    dictGet k' (dictInsert k v d) = dictGet k' d := by
  induction d with
  | nil => simp [dictInsert, dictGet, Ne.symm hne]
  | cons p rest ih =>
    by_cases h : p.1 = k
    · have hk : ¬(k = k') := fun hh => hne hh.symm
      have hp : ¬(p.1 = k') := fun hh => hne (h.symm.trans hh).symm
      simp [dictInsert, h, dictGet, hk, hp]
    · simp [dictInsert, h, dictGet, ih]

theorem mem_dictInsert {α β : Type} [DecidableEq α] {k : α} {v : β}
    {d : List (α × β)} {p : α × β} (hp : p ∈ dictInsert k v d) :
    p = (k, v) ∨ p ∈ d := by
  induction d with
  | nil => simpa [dictInsert] using hp
  | cons q rest ih =>
    by_cases h : q.1 = k
    · rcases (by simpa [dictInsert, h] using hp : p = (k, v) ∨ p ∈ rest) with h1 | h1
      · exact Or.inl h1
      · exact Or.inr (List.mem_cons_of_mem q h1)
    · rcases (by simpa [dictInsert, h] using hp : p = q ∨ p ∈ dictInsert k v rest) with h1 | h1
      · exact Or.inr (h1 ▸ List.mem_cons_self q rest)
      · rcases ih h1 with h2 | h2
        · exact Or.inl h2
        · exact Or.inr (List.mem_cons_of_mem q h2)

theorem length_dictInsert_of_isSome {α β : Type} [DecidableEq α] {k : α} (v : β)
    {d : List (α × β)} (h : (dictGet k d).isSome) :
    (dictInsert k v d).length = d.length := by
  induction d with
  | nil => simp [dictGet] at h
  | cons p rest ih =>
    by_cases hp : p.1 = k
    · simp [dictInsert, hp]
    · have h' : (dictGet k rest).isSome := by simpa [dictGet, hp] using h
      simp [dictInsert, hp, ih h']

theorem length_dictInsert_of_none {α β : Type} [DecidableEq α] {k : α} (v : β)
    {d : List (α × β)} (h : dictGet k d = none) :
    (dictInsert k v d).length = d.length + 1 := by
  induction d with
  | nil => simp [dictInsert]
  | cons p rest ih =>
    by_cases hp : p.1 = k
    · simp [dictGet, hp] at h
    · have h' : dictGet k rest = none := by simpa [dictGet, hp] using h
      simp [dictInsert, hp, ih h']

theorem dictGet_mem {α β : Type} [DecidableEq α] {k : α} {v : β}
    {d : List (α × β)} (h : dictGet k d = some v) : (k, v) ∈ d := by
  induction d with
  | nil => simp [dictGet] at h
  | cons p rest ih =>
    by_cases hp : p.1 = k
    · have hv : p.2 = v := by simpa [dictGet, hp] using h
      have : p = (k, v) := by
        cases p
        simp_all
      exact this ▸ List.mem_cons_self p rest
    · exact List.mem_cons_of_mem p (ih (by simpa [dictGet, hp] using h))

theorem dictGet_dictErase_self {α β : Type} [DecidableEq α] (k : α)
    (d : List (α × β)) : dictGet k (dictErase k d) = none := by
  induction d with
  | nil => simp [dictErase, dictGet]
  | cons p rest ih =>
    by_cases hp : p.1 = k
    · simpa [dictErase, hp] using ih
    · simp [dictErase, hp, dictGet, ih]

theorem mem_of_mem_dictErase {α β : Type} [DecidableEq α] {k : α}
    {d : List (α × β)} {p : α × β} (hp : p ∈ dictErase k d) : p ∈ d := by
  induction d with
  | nil => simp [dictErase] at hp
  | cons q rest ih =>
    by_cases hq : q.1 = k
    · exact List.mem_cons_of_mem q (ih (by simpa [dictErase, hq] using hp))
    · rcases (by simpa [dictErase, hq] using hp : p = q ∨ p ∈ dictErase k rest) with h1 | h1
      · exact h1 ▸ List.mem_cons_self q rest
      · exact List.mem_cons_of_mem q (ih h1)

theorem length_dictErase_le {α β : Type} [DecidableEq α] (k : α)
    (d : List (α × β)) : (dictErase k d).length ≤ d.length := by
  induction d with
  | nil => simp [dictErase]
  | cons p rest ih =>
    by_cases hp : p.1 = k
    · simp only [dictErase, if_pos hp]
      exact le_trans ih (Nat.le_succ _)
    · simpa [dictErase, hp] using ih

/-! ### Lemmas about `get_cart` and saved states -/

theorem get_cart_of_none {m : CartManager} {u : Nat}
    (h : dictGet u m.carts = none) : m.get_cart u = ⟨[]⟩ := by
  simp [CartManager.get_cart, h]

theorem get_cart_of_some {m : CartManager} {u : Nat} {c : Cart}
    (h : dictGet u m.carts = some c) : m.get_cart u = c := by
  simp [CartManager.get_cart, h]

theorem get_cart_save_self (u : Nat) (c : Cart) (l : List (Nat × Cart)) :
    (CartManager.mk (dictInsert u c l)).get_cart u = c := by
  simp [CartManager.get_cart, dictGet_dictInsert_self]

/-- The state saved by `add_item` when the item id is absent from the
user's cart: the new key is inserted and the cart is stored, whether the
call succeeded or hit the capacity early-return (in the latter case the
cart is necessarily materialized — a fresh cart holds one item, below
`MAX_CART_ITEMS` — and the aliased in-place mutation persists). -/
theorem add_item_state_of_absent (m : CartManager) (u : Nat) (i : String) (q : Int)
    (hq : dictGet i (m.get_cart u).items = none) :
    (m.add_item u i q).2 =
      ⟨dictInsert u ⟨dictInsert i q (m.get_cart u).items⟩ m.carts⟩ := by
  by_cases hm : (dictGet u m.carts).isSome
  · simp only [CartManager.add_item, hq]
    split
    · simp [hm]
    · rfl
  · have hnone : dictGet u m.carts = none := Option.not_isSome_iff_eq_none.mp hm
    have hc : m.get_cart u = ⟨[]⟩ := get_cart_of_none hnone
    rw [hc] at hq ⊢
    simp [CartManager.add_item, hc, dictGet, dictInsert, MAX_CART_ITEMS]

/-- The state saved by `add_item` when the item id is already present:
the stored quantity is incremented and the cart (necessarily
materialized) is stored, on the success path and on the capacity
early-return alike. -/
theorem add_item_state_of_present (m : CartManager) (u : Nat) (i : String) (q q0 : Int)
    (hq : dictGet i (m.get_cart u).items = some q0) :
    (m.add_item u i q).2 =
      ⟨dictInsert u ⟨dictInsert i (q0 + q) (m.get_cart u).items⟩ m.carts⟩ := by
  have hm : (dictGet u m.carts).isSome := by
    rcases h : dictGet u m.carts with _ | c
    · rw [get_cart_of_none h] at hq
      simp [dictGet] at hq
    · rfl
  simp only [CartManager.add_item, hq]
  split
  · simp [hm]
  · rfl

/-- C7: calling `add_item(u, i, 1)` twice in sequence on a cart not
containing `i` leaves stored quantity 2 for `i` — `add_item` accumulates
rather than overwrites. -/
theorem C7_addItem_twice_accumulates (m : CartManager) (u : Nat) (i : String)
    (h : dictGet i (m.get_cart u).items = none) :
    (((m.add_item u i 1).2).add_item u i 1).2.get_item_quantity u i = 2 := by
  have h1 := add_item_state_of_absent m u i 1 h
  have hget : ((m.add_item u i 1).2).get_cart u = ⟨dictInsert i 1 (m.get_cart u).items⟩ := by
    rw [h1]
    exact get_cart_save_self u _ m.carts
  have h2 : dictGet i (((m.add_item u i 1).2).get_cart u).items = some 1 := by
    rw [hget]
    exact dictGet_dictInsert_self i 1 _
  have h3 := add_item_state_of_present (m.add_item u i 1).2 u i 1 1 h2
  rw [CartManager.get_item_quantity, h3, get_cart_save_self, dictGet_dictInsert_self]
  norm_num

theorem C7_witness :
    dictGet "a" ((CartManager.mk []).get_cart 7).items = none ∧
    ((((CartManager.mk []).add_item 7 "a" 1).2).add_item 7 "a" 1).2.get_item_quantity 7 "a" = 2 :=
  ⟨rfl, C7_addItem_twice_accumulates ⟨[]⟩ 7 "a" rfl⟩

/-- C8: `update_quantity` with `quantity <= 0` is literally a
`remove_item` call, after which the stored quantity reads back as 0;
with `quantity > 0` it stores exactly that quantity. -/
theorem C8_updateQuantity_semantics (m : CartManager) (u : Nat) (i : String) (q : Int) :
    (q ≤ 0 → m.update_quantity u i q = m.remove_item u i ∧
      (m.update_quantity u i q).2.get_item_quantity u i = 0) ∧
    (0 < q → (m.update_quantity u i q).2.get_item_quantity u i = q) := by
  constructor
  · intro hq
    have heq : m.update_quantity u i q = m.remove_item u i := by
      simp [CartManager.update_quantity, hq]
    refine ⟨heq, ?_⟩
    rw [heq]
    by_cases hp : (dictGet i (m.get_cart u).items).isSome
    · simp only [CartManager.remove_item, if_pos hp]
      simp [CartManager.get_item_quantity, get_cart_save_self, dictGet_dictErase_self]
    · simp only [CartManager.remove_item, if_neg hp]
      have hn : dictGet i (m.get_cart u).items = none := Option.not_isSome_iff_eq_none.mp hp
      simp [CartManager.get_item_quantity, hn]
  · intro hq
    have hq' : ¬q ≤ 0 := not_le.mpr hq
    simp only [CartManager.update_quantity, if_neg hq']
    simp [CartManager.get_item_quantity, get_cart_save_self, dictGet_dictInsert_self]

theorem C8_witness :
    (-1 : Int) ≤ 0 ∧
    (mA.update_quantity 7 "a" (-1) = mA.remove_item 7 "a" ∧
      (mA.update_quantity 7 "a" (-1)).2.get_item_quantity 7 "a" = 0) :=
  ⟨by decide, (C8_updateQuantity_semantics mA 7 "a" (-1)).1 (by decide)⟩

/-- C9: a user with no cart in the store and a user whose cart is
materialized with an empty items dict are indistinguishable through the
read operations: the cart's items mapping, `get_item_quantity`,
`get_cart_total`, `get_cart_item_count` and `is_cart_empty` agree. -/
theorem C9_noCart_empty_equiv (m1 m2 : CartManager) (u : Nat)
    (h1 : dictGet u m1.carts = none) (h2 : dictGet u m2.carts = some ⟨[]⟩) :
    (m1.get_cart u).items = (m2.get_cart u).items ∧
    (∀ i, m1.get_item_quantity u i = m2.get_item_quantity u i) ∧
    (∀ menu, m1.get_cart_total u menu = m2.get_cart_total u menu) ∧
    m1.get_cart_item_count u = m2.get_cart_item_count u ∧
    m1.is_cart_empty u = m2.is_cart_empty u := by
  have e1 : m1.get_cart u = ⟨[]⟩ := get_cart_of_none h1
  have e2 : m2.get_cart u = ⟨[]⟩ := get_cart_of_some h2
  refine ⟨?_, ?_, ?_, ?_, ?_⟩ <;>
    simp [CartManager.get_item_quantity, CartManager.get_cart_total,
      CartManager.get_cart_item_count, CartManager.is_cart_empty, e1, e2]

theorem C9_witness :
    dictGet 7 (CartManager.mk []).carts = none ∧
    dictGet 7 mEmptyCart.carts = some ⟨[]⟩ ∧
    (CartManager.mk []).get_item_quantity 7 "x" = mEmptyCart.get_item_quantity 7 "x" :=
  ⟨rfl, by decide, (C9_noCart_empty_equiv ⟨[]⟩ mEmptyCart 7 rfl (by decide)).2.1 "x"⟩

/-- C10: draining the last entry with `remove_item` keeps the user's key
in the store with an empty items dict, so a following `clear_cart`
returns `True`; `clear_cart` for a user with no materialized cart
returns `False` — the two states are distinguishable. -/
theorem C10_drained_vs_noCart (m : CartManager) (u : Nat) (i : String) (q : Int)
    (h : (m.get_cart u).items = [(i, q)]) :
    dictGet u ((m.remove_item u i).2).carts = some ⟨[]⟩ ∧
    (((m.remove_item u i).2).clear_cart u).1 = true ∧
    ∀ v : Nat, dictGet v m.carts = none → (m.clear_cart v).1 = false := by
  have hp : (dictGet i (m.get_cart u).items).isSome := by simp [h, dictGet]
  have hstate : (m.remove_item u i).2 =
      ⟨dictInsert u ⟨dictErase i (m.get_cart u).items⟩ m.carts⟩ := by
    simp [CartManager.remove_item, hp]
  have herase : dictErase i (m.get_cart u).items = [] := by simp [h, dictErase]
  refine ⟨?_, ?_, ?_⟩
  · rw [hstate]
    simp only [herase]
    exact dictGet_dictInsert_self u ⟨[]⟩ m.carts
  · rw [hstate]
    simp [CartManager.clear_cart, dictGet_dictInsert_self]
  · intro v hv
    simp [CartManager.clear_cart, hv]

theorem C10_witness :
    (mA.get_cart 7).items = [("a", (2 : Int))] ∧
    dictGet 7 ((mA.remove_item 7 "a").2).carts = some ⟨[]⟩ ∧
    (((mA.remove_item 7 "a").2).clear_cart 7).1 = true :=
  ⟨by decide, (C10_drained_vs_noCart mA 7 "a" 2 (by decide)).1,
    (C10_drained_vs_noCart mA 7 "a" 2 (by decide)).2.1⟩

/-! ### Invariant helper lemmas -/

theorem posQuantities_get_cart {m : CartManager} (h : PosQuantities m) (u : Nat) :
    ∀ e ∈ (m.get_cart u).items, 0 < e.2 := by
  rcases hg : dictGet u m.carts with _ | c
  · rw [get_cart_of_none hg]
    intro e he
    simp at he
  · rw [get_cart_of_some hg]
    exact fun e he => h (u, c) (dictGet_mem hg) e he

theorem keysBound_get_cart {m : CartManager} (h : KeysBound m) (u : Nat) :
    (m.get_cart u).items.length ≤ MAX_CART_ITEMS := by
  rcases hg : dictGet u m.carts with _ | c
  · rw [get_cart_of_none hg]
    simp [MAX_CART_ITEMS]
  · rw [get_cart_of_some hg]
    exact h (u, c) (dictGet_mem hg)

theorem posQuantities_save {m : CartManager} {u : Nat} {c : Cart}
    (hm : PosQuantities m) (hc : ∀ e ∈ c.items, 0 < e.2) :
    PosQuantities ⟨dictInsert u c m.carts⟩ := by
  intro p hp e he
  rcases mem_dictInsert hp with h1 | h1
  · exact hc e (by rw [h1] at he; exact he)
  · exact hm p h1 e he

theorem keysBound_save {m : CartManager} {u : Nat} {c : Cart}
    (hm : KeysBound m) (hc : c.items.length ≤ MAX_CART_ITEMS) :
    KeysBound ⟨dictInsert u c m.carts⟩ := by
  intro p hp
  rcases mem_dictInsert hp with h1 | h1
  · rw [h1]
    exact hc
  · exact hm p h1

theorem posQuantities_eraseUser {m : CartManager} (u : Nat) (hm : PosQuantities m) :
    PosQuantities ⟨dictErase u m.carts⟩ :=
  fun p hp e he => hm p (mem_of_mem_dictErase hp) e he

theorem keysBound_eraseUser {m : CartManager} (u : Nat) (hm : KeysBound m) :
    KeysBound ⟨dictErase u m.carts⟩ :=
  fun p hp => hm p (mem_of_mem_dictErase hp)

/-- C4 counterexample: the empty store satisfies the positivity
invariant, yet a single `add_item` call with quantity 0 — one of the
spec's Cart Store operations — produces a store that violates it, since
`add_item` performs no quantity validation. -/
theorem C4_counterexample :
    PosQuantities (CartManager.mk []) ∧
    ¬PosQuantities ((CartManager.mk []).add_item 7 "a" 0).2 ∧
    dictGet "a" (((CartManager.mk []).add_item 7 "a" 0).2.get_cart 7).items = some 0 := by
  decide

/-- C4 (amended): positivity of stored quantities is preserved by
`update_quantity`, `remove_item` and `clear_cart` unconditionally, and
by `add_item` when the supplied quantity is positive; `add_item` does
not validate its quantity argument, so only positive arguments keep the
invariant. -/
theorem C4_amended_positivity (m : CartManager) (u : Nat) (i : String) (q : Int)
    (hm : PosQuantities m) :
    (0 < q → PosQuantities (m.add_item u i q).2) ∧
    PosQuantities (m.update_quantity u i q).2 ∧
    PosQuantities (m.remove_item u i).2 ∧
    PosQuantities (m.clear_cart u).2 := by
  have hcart := posQuantities_get_cart hm u
  have hrem : PosQuantities (m.remove_item u i).2 := by
    by_cases hp : (dictGet i (m.get_cart u).items).isSome
    · simp only [CartManager.remove_item, if_pos hp]
      exact posQuantities_save hm (fun e he => hcart e (mem_of_mem_dictErase he))
    · simp only [CartManager.remove_item, if_neg hp]
      exact hm
  have hclear : PosQuantities (m.clear_cart u).2 := by
    by_cases hp : (dictGet u m.carts).isSome
    · simp only [CartManager.clear_cart, if_pos hp]
      exact posQuantities_eraseUser u hm
    · simp only [CartManager.clear_cart, if_neg hp]
      exact hm
  have hupd : PosQuantities (m.update_quantity u i q).2 := by
    by_cases hq : q ≤ 0
    · simpa [CartManager.update_quantity, hq] using hrem
    · simp only [CartManager.update_quantity, if_neg hq]
      refine posQuantities_save hm ?_
      intro e he
      rcases mem_dictInsert he with h1 | h1
      · rw [h1]
        exact not_le.mp hq
      · exact hcart e h1
  refine ⟨?_, hupd, hrem, hclear⟩
  intro hq
  rcases hg : dictGet i (m.get_cart u).items with _ | q0
  · rw [add_item_state_of_absent m u i q hg]
    refine posQuantities_save hm ?_
    intro e he
    rcases mem_dictInsert he with h1 | h1
    · rw [h1]
      exact hq
    · exact hcart e h1
  · rw [add_item_state_of_present m u i q q0 hg]
    refine posQuantities_save hm ?_
    intro e he
    rcases mem_dictInsert he with h1 | h1
    · rw [h1]
      exact add_pos (hcart (i, q0) (dictGet_mem hg)) hq
    · exact hcart e h1

theorem C4_witness :
    PosQuantities mA ∧ PosQuantities (mA.remove_item 7 "a").2 :=
  ⟨by decide, (C4_amended_positivity mA 7 "a" 3 (by decide)).2.2.1⟩

/-- C5 counterexample: `m50` satisfies the distinct-key bound (user 7
holds exactly `MAX_CART_ITEMS` ids), yet `update_quantity` with a
positive quantity for the absent id `"b"` — a Cart Store operation —
inserts a new key with no capacity check, leaving 51 distinct keys. -/
theorem C5_counterexample :
    KeysBound m50 ∧
    ¬KeysBound (m50.update_quantity 7 "b" 3).2 ∧
    ((m50.update_quantity 7 "b" 3).2.get_cart 7).items.length = MAX_CART_ITEMS + 1 := by
  decide

/-- C5 (amended): the distinct-key bound is preserved by `remove_item`
and `clear_cart`, and by `add_item` whenever it returns `True`; but
`update_quantity` only preserves it when the item id is already present
(update in place) — for an absent id with a positive quantity it inserts
a new key with no capacity check, growing the distinct-key count by
one (`add_item`'s rejected path can likewise leave an over-capacity cart
through its aliased in-place mutation). -/
theorem C5_amended_keysBound (m : CartManager) (u : Nat) (i : String) (q : Int)
    (hm : KeysBound m) :
    KeysBound (m.remove_item u i).2 ∧
    KeysBound (m.clear_cart u).2 ∧
    ((m.add_item u i q).1 = true → KeysBound (m.add_item u i q).2) ∧
    ((dictGet i (m.get_cart u).items).isSome → KeysBound (m.update_quantity u i q).2) ∧
    (dictGet i (m.get_cart u).items = none → 0 < q →
      (((m.update_quantity u i q).2).get_cart u).items.length =
        (m.get_cart u).items.length + 1) := by
  have hlen := keysBound_get_cart hm u
  have hrem : KeysBound (m.remove_item u i).2 := by
    by_cases hp : (dictGet i (m.get_cart u).items).isSome
    · simp only [CartManager.remove_item, if_pos hp]
      exact keysBound_save hm (le_trans (length_dictErase_le i _) hlen)
    · simp only [CartManager.remove_item, if_neg hp]
      exact hm
  refine ⟨hrem, ?_, ?_, ?_, ?_⟩
  · by_cases hp : (dictGet u m.carts).isSome
    · simp only [CartManager.clear_cart, if_pos hp]
      exact keysBound_eraseUser u hm
    · simp only [CartManager.clear_cart, if_neg hp]
      exact hm
  · intro hok
    rcases hg : dictGet i (m.get_cart u).items with _ | q0
    · by_cases hl : (dictInsert i q (m.get_cart u).items).length > MAX_CART_ITEMS
      · exfalso
        have hfalse : (m.add_item u i q).1 = false := by
          simp [CartManager.add_item, hg, hl]
        rw [hfalse] at hok
        exact Bool.false_ne_true hok
      · rw [add_item_state_of_absent m u i q hg]
        exact keysBound_save hm (not_lt.mp hl)
    · by_cases hl : (dictInsert i (q0 + q) (m.get_cart u).items).length > MAX_CART_ITEMS
      · exfalso
        have hfalse : (m.add_item u i q).1 = false := by
          simp [CartManager.add_item, hg, hl]
        rw [hfalse] at hok
        exact Bool.false_ne_true hok
      · rw [add_item_state_of_present m u i q q0 hg]
        exact keysBound_save hm (not_lt.mp hl)
  · intro hp
    by_cases hq : q ≤ 0
    · simpa [CartManager.update_quantity, hq] using hrem
    · simp only [CartManager.update_quantity, if_neg hq]
      exact keysBound_save hm (le_trans (le_of_eq (length_dictInsert_of_isSome q hp)) hlen)
  · intro hg hq
    have hq' : ¬q ≤ 0 := not_le.mpr hq
    simp only [CartManager.update_quantity, if_neg hq']
    rw [get_cart_save_self]
    exact length_dictInsert_of_none q hg

theorem C5_witness :
    KeysBound mA ∧ KeysBound (mA.remove_item 7 "a").2 :=
  ⟨by decide, (C5_amended_keysBound mA 7 "a" 3 (by decide)).1⟩

/-- C3 counterexample: on the empty store, `add_item` with quantity 0
returns `True` (it does not fail) and mutates the cart, storing the
entry `a ↦ 0` — there is no `InvalidArgument` rejection of non-positive
quantities in the code. -/
theorem C3_counterexample :
    ((CartManager.mk []).add_item 7 "a" 0).1 = true ∧
    ((CartManager.mk []).add_item 7 "a" 0).2 ≠ CartManager.mk [] ∧
    dictGet "a" (((CartManager.mk []).add_item 7 "a" 0).2.get_cart 7).items = some 0 := by
  decide

/-- C3 (amended): `add_item` performs no quantity validation — a call
with quantity ≤ 0 behaves like any other: below capacity it returns
`True` and adds the (non-positive) quantity to the stored value,
mutating the cart. -/
theorem C3_amended_no_validation (m : CartManager) (u : Nat) (i : String) (q : Int)
    (_hq : q ≤ 0) (hlen : (m.get_cart u).items.length < MAX_CART_ITEMS) :
    (m.add_item u i q).1 = true ∧
    (m.add_item u i q).2.get_item_quantity u i = m.get_item_quantity u i + q := by
  rcases hg : dictGet i (m.get_cart u).items with _ | q0
  · have hle : (dictInsert i q (m.get_cart u).items).length ≤ MAX_CART_ITEMS := by
      rw [length_dictInsert_of_none q hg]
      omega
    constructor
    · simp [CartManager.add_item, hg, not_lt.mpr hle]
    · rw [add_item_state_of_absent m u i q hg]
      simp [CartManager.get_item_quantity, get_cart_save_self, dictGet_dictInsert_self, hg]
  · have hle : (dictInsert i (q0 + q) (m.get_cart u).items).length ≤ MAX_CART_ITEMS := by
      rw [length_dictInsert_of_isSome (q0 + q) (by simp [hg])]
      omega
    constructor
    · simp [CartManager.add_item, hg, not_lt.mpr hle]
    · rw [add_item_state_of_present m u i q q0 hg]
      simp [CartManager.get_item_quantity, get_cart_save_self, dictGet_dictInsert_self, hg]

theorem C3_witness :
    (-2 : Int) ≤ 0 ∧
    ((CartManager.mk []).get_cart 7).items.length < MAX_CART_ITEMS ∧
    (((CartManager.mk []).add_item 7 "a" (-2)).1 = true ∧
      ((CartManager.mk []).add_item 7 "a" (-2)).2.get_item_quantity 7 "a" =
        (CartManager.mk []).get_item_quantity 7 "a" + (-2)) :=
  ⟨by decide, by decide, C3_amended_no_validation ⟨[]⟩ 7 "a" (-2) (by decide) (by decide)⟩

/-- C1: at `m50` — user 7's cart materialized with exactly
`MAX_CART_ITEMS` distinct ids, `"b"` not among them — `add_item` of
`"b"` returns `False` (the `CapacityExceeded` signal) yet the stored
item set is *not* the one before the call: the rejected id `"b"` is now
present with quantity 1 and the cart holds `MAX_CART_ITEMS + 1` distinct
ids, because the capacity check at line 49 runs only after the in-place
mutation of the aliased stored dict at lines 43-46 and the early return
at line 51 cannot undo it. -/
theorem C1_rejected_addItem_mutates :
    (m50.get_cart 7).items.length = MAX_CART_ITEMS ∧
    dictGet "b" (m50.get_cart 7).items = none ∧
    (m50.add_item 7 "b" 1).1 = false ∧
    (m50.add_item 7 "b" 1).2.get_item_quantity 7 "b" = 1 ∧
    ((m50.add_item 7 "b" 1).2.get_cart 7).items.length = MAX_CART_ITEMS + 1 := by
  decide

/-- `scanMenu` never changes the accumulator: it either passes it
through (no category value ever reaches the `total +=` statement) or
aborts with the `AttributeError` raised on the first key of a dict-valued
category. -/
theorem scanMenu_ok_or_error (menu : List (String × MenuVal)) (t : Rat) :
    scanMenu menu t = .ok t ∨ scanMenu menu t = .error () := by
  induction menu with
  | nil => exact Or.inl rfl
  | cons c rest ih =>
    rcases c with ⟨name, v⟩
    cases v with
    | dict entries =>
      cases entries with
      | nil => simpa [scanMenu, scanCategory] using ih
      | cons e es =>
        right
        simp [scanMenu, scanCategory]
    | other es => simpa [scanMenu, scanCategory] using ih

/-- The outer loop of `get_cart_total` likewise leaves the accumulator
untouched or aborts. -/
theorem totalLoop_ok_or_error (menu : List (String × MenuVal))
    (l : List (String × Int)) (t : Rat) :
    totalLoop menu l t = .ok t ∨ totalLoop menu l t = .error () := by
  induction l with
  | nil => exact Or.inl rfl
  | cons x rest ih =>
    rcases scanMenu_ok_or_error menu t with h | h
    · simpa [totalLoop, h] using ih
    · right
      simp [totalLoop, h]

/-- `get_cart_total` returns 0 for every store, user and catalog: the
`isinstance(items, dict)` guard skips list-valued categories, and a
dict-valued category raises `AttributeError` on its first key (strings
have no `.get`), which the broad `except` converts to the fallback 0. -/
theorem get_cart_total_eq_zero (m : CartManager) (u : Nat)
    (menu : List (String × MenuVal)) : m.get_cart_total u menu = 0 := by
  unfold CartManager.get_cart_total
  rcases totalLoop_ok_or_error menu (m.get_cart u).items 0 with h | h <;> rw [h]

/-- C2: for the spec's own example — cart `{a: 2, b: 1}`, catalog
prices `a = $3.00`, `b = $5.00` — `get_cart_total` returns 0, not the
specified 11.00, under both plausible catalog shapes (list-valued
categories as in `menu_data.json`, and dict-valued categories), and
also 0 rather than 6.00 with `b` absent from the catalog. -/
theorem C2_total_always_zero :
    mAB.get_cart_total 7 menuAB = 0 ∧
    mAB.get_cart_total 7 menuABdict = 0 ∧
    mAB.get_cart_total 7 [("coffee", .other [⟨"a", "$3.00"⟩])] = 0 ∧
    (11 : Rat) ≠ 0 ∧ (6 : Rat) ≠ 0 := by
  decide
